import Mathlib

/-!
Shallow embedding of `ichnaea/scripts/datamap.py` (datamap tile generation and
S3 sync pipeline) with proofs about its specified properties.

The embedding models, faithfully to the Python source:
  * `export_to_csv` — shard CSV export with file rotation (source lines 495-589);
  * `watch_jobs` — the concurrent job-batch executor (source lines 254-295);
  * `merge_quadtrees` — the merge-command construction (source lines 363-372),
    together with a spec-modelled semantics for the external `merge` binary;
  * `get_sync_actions` / `get_current_objects` / `get_sync_plan` — the
    S3 diff-based sync planner (source lines 395-421, 740-803);
  * `generate` — the pipeline orchestrator's control flow (source lines 76-198).

Machine details abstracted: the database pagination is modelled as the list of
per-fetch emitted line counts; wall-clock time is modelled as a monotone list of
timer readings in abstract (natural-number) time units; file contents are
modelled by their size and MD5 digest.
-/

namespace Datamap

/-! ### String helpers

Python `sorted` compares strings lexicographically by code point; Lean's
built-in `String` order does not reduce in the kernel, so we model it directly
on the character lists. -/

/-- Lexicographic strict order on character lists, by code point. -/
def charListLt : List Char → List Char → Bool
  | [], [] => false
  | [], _ :: _ => true
  | _ :: _, [] => false
  | c :: cs, d :: ds =>
    if c.toNat < d.toNat then true
    else if d.toNat < c.toNat then false
    else charListLt cs ds

/-- Total order on strings used by the model of Python `sorted`. -/
def strLe (a b : String) : Bool := !(charListLt b.toList a.toList)

/-- Insert a string into an already sorted list (model of a stable sort step). -/
def insertSorted (s : String) : List String → List String
  | [] => [s]
  | t :: ts => if strLe s t then s :: t :: ts else t :: insertSorted s ts

/-- Model of Python `sorted` on a list of strings (insertion sort; stable,
lexicographic by code point). -/
def sortStrings (l : List String) : List String := l.foldr insertSorted []

/-! ### Shard export with file rotation (`export_to_csv`, source lines 495-589)

The database loop is modelled by the list of per-iteration emitted line counts
(`len(lines)` for each fetched page); the loop ends when a fetch returns no
rows. Output files are modelled as `(filename, rows written)` pairs. -/

/-- Zero-padded 4-digit decimal, model of Python `f"{n:04}"`. -/
def pad4 (n : Nat) : String :=
  let s := toString n
  String.mk (List.replicate (4 - s.length) '0') ++ s

/-- Model of `orig_filename.replace(".csv", suffix)` for a filename that ends in
`".csv"` (asserted in the source) and contains it only there: drop the last four
characters. -/
def drop_csv_suffix (s : String) : String :=
  String.mk (s.toList.take (s.toList.length - 4))

/-- Rotated segment filename, model of source line 568-570:
`"sub" + orig_filename.replace(".csv", f"_{file_count:04}.csv")`. -/
def rotated_filename (orig : String) (count : Nat) : String :=
  "sub" ++ (drop_csv_suffix orig ++ "_" ++ pad4 count ++ ".csv")

/-- Loop state of `export_to_csv`: the counters of the source function plus the
current segment's filename and the list of closed segments. -/
structure ExportState where
  result_rows : Nat
  file_rows : Nat
  file_count : Nat
  filename : String
  closed : List (String × Nat)
deriving DecidableEq, Repr

/-- One iteration of the export loop (source lines 544-574) on a fetched page
that expanded to `n` output lines: write the lines, then rotate the file when
needed. The rotation test is the source's `if result_rows >= file_limit:`
(line 564), i.e. it compares the cumulative total row count, not the current
segment's `file_rows`. -/
def export_step (orig_filename : String) (file_limit : Nat) (s : ExportState) (n : Nat) :
    ExportState :=
  let result_rows := s.result_rows + n
  let file_rows := s.file_rows + n
  if file_limit ≤ result_rows then
    { result_rows := result_rows
      file_rows := 0
      file_count := s.file_count + 1
      filename := rotated_filename orig_filename (s.file_count + 1)
      closed := s.closed ++ [(s.filename, file_rows)] }
  else
    { s with result_rows := result_rows, file_rows := file_rows }

/-- Model of `export_to_csv` (source lines 495-589) over the list of
per-iteration emitted line counts. Returns `(result_rows, file_count)` as the
source does, together with the list of output files as `(name, rows)` pairs.
After the loop the current file is closed; an empty last file is removed
(lines 578-580); if more than one file remains, the first is renamed into the
numbered scheme (lines 582-586). -/
def export_to_csv (filename : String) (file_limit : Nat) (batches : List Nat) :
    Nat × Nat × List (String × Nat) :=
  let s0 : ExportState :=
    { result_rows := 0, file_rows := 0, file_count := 1, filename := filename, closed := [] }
  let s := batches.foldl (export_step filename file_limit) s0
  let files := s.closed ++ [(s.filename, s.file_rows)]
  let removed := if s.file_rows = 0 then (s.closed, s.file_count - 1) else (files, s.file_count)
  let files := removed.1
  let file_count := removed.2
  let files :=
    if 1 < file_count then
      files.map (fun f => if f.1 = filename then (rotated_filename filename 1, f.2) else f)
    else files
  (s.result_rows, file_count, files)

/-- Modelled from the spec: the rotation rule of spec section 4.5 and claim C1,
where a segment is closed exactly when the rows accumulated in the *current
segment* (`file_rows`) reach the threshold. Identical to `export_step` except
for the tested counter. The source `export_to_csv` is the authority for the
code's behaviour; this definition exists only to state what the claimed rule
would produce. -/
def export_step_specRotation (orig_filename : String) (file_limit : Nat) (s : ExportState)
    (n : Nat) : ExportState :=
  let result_rows := s.result_rows + n
  let file_rows := s.file_rows + n
  if file_limit ≤ file_rows then
    { result_rows := result_rows
      file_rows := 0
      file_count := s.file_count + 1
      filename := rotated_filename orig_filename (s.file_count + 1)
      closed := s.closed ++ [(s.filename, file_rows)] }
  else
    { s with result_rows := result_rows, file_rows := file_rows }

/-- Modelled from the spec: `export_to_csv` with the per-segment rotation rule
of `export_step_specRotation`; otherwise identical to the source model. -/
def export_to_csv_specRotation (filename : String) (file_limit : Nat) (batches : List Nat) :
    Nat × Nat × List (String × Nat) :=
  let s0 : ExportState :=
    { result_rows := 0, file_rows := 0, file_count := 1, filename := filename, closed := [] }
  let s := batches.foldl (export_step_specRotation filename file_limit) s0
  let files := s.closed ++ [(s.filename, s.file_rows)]
  let removed := if s.file_rows = 0 then (s.closed, s.file_count - 1) else (files, s.file_count)
  let files := removed.1
  let file_count := removed.2
  let files :=
    if 1 < file_count then
      files.map (fun f => if f.1 = filename then (rotated_filename filename 1, f.2) else f)
    else files
  (s.result_rows, file_count, files)

/-! ### Spatial-index merge (`merge_quadtrees`, source lines 363-372) -/

/-- Command line built by `merge_quadtrees`: `["merge"]`, then `"-u"` exactly
when `remove_duplicates` is set, then `"-o", shapes_dir`, then the input files
(source lines 367-371). The shard-level merge in `csv_to_quadtrees` (lines
344-349) passes `remove_duplicates=False`; the global merge in `generate`
(line 153) uses the default `remove_duplicates=True`. -/
def merge_quadtrees_cmd (quadtree_files : List String) (shapes_dir : String)
    (remove_duplicates : Bool) : List String :=
  ["merge"] ++ (if remove_duplicates then ["-u"] else []) ++ ["-o", shapes_dir] ++ quadtree_files

/-- Modelled from the spec: the external datamaps `merge` binary is not part of
this repository; spec section 6 fixes its contract as `merge [-u] -o <out>
<inputs...>` where `-u` removes duplicate points and, without `-u`, the inputs
are combined keeping duplicates. Points are abstract values with decidable
equality; an artifact is the list of its points. -/
def merge_semantics {α : Type} [DecidableEq α] (remove_duplicates : Bool)
    (inputs : List (List α)) : List α :=
  if remove_duplicates then inputs.flatten.dedup else inputs.flatten

/-! ### Job batch executor (`watch_jobs`, source lines 254-295)

Each job is modelled by the pair of the timer reading (`timer.elapsed`, in
abstract time units) observed at the top of its loop iteration and the outcome
that awaiting it (`job.get()`) produces. Callback presence is modelled by
booleans; callback invocations are recorded in the state. The source reads
`timer.elapsed` twice per progress tick (condition and `last_elapsed` update);
the model uses one reading for both. -/

/-- Outcome of awaiting one job: a result, an exception, or a keyboard
interrupt. -/
inductive JobOutcome (E R : Type) where
  | ok (r : R)
  | exc (e : E)
  | interrupt
deriving DecidableEq, Repr

/-- How a `watch_jobs` run ended early, if it did: re-raising a job's exception
(no `on_error` supplied, line 294), re-raising a `KeyboardInterrupt` (line 287),
or the `TypeError` from calling `on_progress` when it is `None` (line 278 calls
it unguarded). -/
inductive Halt (E : Type) where
  | excAbort (e : E)
  | interruptAbort
  | progressNone
deriving DecidableEq, Repr

/-- Which optional collaborators were supplied to `watch_jobs`: the three
callbacks and the raven client. -/
structure Callbacks where
  onSuccess : Bool
  onError : Bool
  onProgress : Bool
  hasRaven : Bool
deriving DecidableEq, Repr

/-- Observable state of a `watch_jobs` run: the source's `last_elapsed` and
`jobs_complete` counters, plus the recorded collaborator invocations — jobs
awaited, `on_success` arguments, `on_error` arguments, raven captures,
`on_progress` arguments `(jobs_complete, total)` — and how the run halted, if
it did. -/
structure WState (E R : Type) where
  last_elapsed : Nat
  jobs_complete : Nat
  awaited : Nat
  successes : List R
  errors : List E
  raven_captures : Nat
  progress_calls : List (Nat × Nat)
  halted : Option (Halt E)
deriving DecidableEq, Repr

/-- Initial `watch_jobs` state (source lines 271-274). -/
def WState.init (E R : Type) : WState E R :=
  { last_elapsed := 0, jobs_complete := 0, awaited := 0, successes := [], errors := [],
    raven_captures := 0, progress_calls := [], halted := none }

/-- One iteration of the `watch_jobs` loop (source lines 275-295) for a job with
timer reading `t` and outcome `o`. A halted state passes through unchanged (the
exception has propagated; later jobs are never awaited). Otherwise: the
progress tick runs first (lines 276-279, calling `on_progress` unguarded), then
the job is awaited and its outcome dispatched (lines 281-295). -/
def watch_step {E R : Type} (cb : Callbacks) (progress_seconds : Nat) (total : Nat)
    (s : WState E R) (job : Nat × JobOutcome E R) : WState E R :=
  if s.halted.isSome then s
  else
    let s1 :=
      if s.last_elapsed + progress_seconds < job.1 then
        if cb.onProgress then
          { s with progress_calls := s.progress_calls ++ [(s.jobs_complete, total)],
                   last_elapsed := job.1 }
        else { s with halted := some Halt.progressNone }
      else s
    if s1.halted.isSome then s1
    else
      let s2 := { s1 with awaited := s1.awaited + 1 }
      match job.2 with
      | JobOutcome.ok r =>
          let s3 := if cb.onSuccess then { s2 with successes := s2.successes ++ [r] } else s2
          { s3 with jobs_complete := s3.jobs_complete + 1 }
      | JobOutcome.exc e =>
          let s3 :=
            if cb.hasRaven then { s2 with raven_captures := s2.raven_captures + 1 } else s2
          if cb.onError then
            { s3 with errors := s3.errors ++ [e], jobs_complete := s3.jobs_complete + 1 }
          else { s3 with halted := some (Halt.excAbort e) }
      | JobOutcome.interrupt => { s2 with halted := some Halt.interruptAbort }

/-- Run of the `watch_jobs` loop from a given state, with `total` fixed by the
caller (`total_jobs = len(jobs)`, line 273). -/
def watch_run {E R : Type} (cb : Callbacks) (progress_seconds : Nat) (total : Nat)
    (s0 : WState E R) (jobs : List (Nat × JobOutcome E R)) : WState E R :=
  jobs.foldl (watch_step cb progress_seconds total) s0

/-- Model of `watch_jobs` (source lines 254-295). The source default for
`progress_seconds` is 5.0 seconds. -/
def watch_jobs {E R : Type} (cb : Callbacks) (progress_seconds : Nat)
    (jobs : List (Nat × JobOutcome E R)) : WState E R :=
  watch_run cb progress_seconds jobs.length (WState.init E R) jobs

/-- Number of awaited jobs whose exception escaped `watch_jobs` as a re-raise:
one for an un-handled job exception or an interrupt, zero otherwise (a
`progressNone` halt happens before the job is awaited). -/
def haltCharge {E : Type} : Option (Halt E) → Nat
  | some (Halt.excAbort _) => 1
  | some Halt.interruptAbort => 1
  | some Halt.progressNone => 0
  | none => 0

/-! ### Pipeline orchestrator (`generate`, source lines 76-198)

The orchestrator's control flow is modelled over abstract per-stage outcomes;
the trace records which stages ran, and the run summary dict is modelled as the
ordered list of keys inserted with (abstract, natural-number) values. -/

/-- Stages of the pipeline, in the order `generate` runs them: CSV export,
quadtree build, quadtree merge, tile render, sync-plan computation, tile sync,
and the status-file upload. The last three mutate or read the remote store. -/
inductive Stage where
  | exportCsv
  | quadtree
  | mergeShapes
  | renderTiles
  | syncPlanStage
  | syncTilesStage
  | statusUpload
deriving DecidableEq, Repr

/-- Abstract outcomes of each stage of a `generate` run: every counter or
duration that `generate` stores into its result dict. -/
structure GenEnv where
  export_duration_s : Nat
  row_count : Nat
  csv_count : Nat
  quadtree_duration_s : Nat
  csv_converted_count : Nat
  intermediate_quadtree_count : Nat
  quadtree_count : Nat
  merge_duration_s : Nat
  tile_count : Nat
  render_duration_s : Nat
  sync_duration_s : Nat
  tiles_unchanged : Nat
  tile_new : Nat
  tile_changed : Nat
  tile_deleted : Nat
  tile_failed : Nat
deriving DecidableEq, Repr

/-- Model of `generate` (source lines 76-198): returns the trace of stages run
and the result dict as an ordered key/value list. Mirrors the source's control
flow: the create phase runs export and, when `result["row_count"] == 0`,
returns immediately (lines 125-127); otherwise it builds quadtrees, merges and
renders; the upload phase computes the sync plan, syncs the tiles and uploads
the status file (lines 167-196). -/
def generate (create upload : Bool) (env : GenEnv) : List Stage × List (String × Nat) :=
  let createPhase : List Stage × List (String × Nat) × Bool :=
    if create then
      let trace := [Stage.exportCsv]
      let result := [("export_duration_s", env.export_duration_s),
        ("row_count", env.row_count), ("csv_count", env.csv_count)]
      if env.row_count = 0 then (trace, result, true)
      else
        let trace := trace ++ [Stage.quadtree]
        let result := result ++ [("quadtree_duration_s", env.quadtree_duration_s),
          ("csv_converted_count", env.csv_converted_count),
          ("intermediate_quadtree_count", env.intermediate_quadtree_count),
          ("quadtree_count", env.quadtree_count)]
        let trace := trace ++ [Stage.mergeShapes]
        let result := result ++ [("merge_duration_s", env.merge_duration_s)]
        let trace := trace ++ [Stage.renderTiles]
        let result := result ++ [("tile_count", env.tile_count),
          ("render_duration_s", env.render_duration_s)]
        (trace, result, false)
    else ([], [], false)
  let trace := createPhase.1
  let result := createPhase.2.1
  let earlyReturn := createPhase.2.2
  if earlyReturn then (trace, result)
  else if upload then
    let trace := trace ++ [Stage.syncPlanStage, Stage.syncTilesStage]
    let result := result ++ [("sync_duration_s", env.sync_duration_s),
      ("tiles_unchanged", env.tiles_unchanged), ("tile_new", env.tile_new),
      ("tile_changed", env.tile_changed), ("tile_deleted", env.tile_deleted),
      ("tile_failed", env.tile_failed)]
    let trace := trace ++ [Stage.statusUpload]
    (trace, result)
  else (trace, result)

/-! ### Sync engine (`get_current_objects` / `get_sync_actions` /
`get_sync_plan`, source lines 395-421, 740-803)

A remote object is a key with size and MD5; a local tile is its relative path
with size and the MD5 of its bytes (files are modelled by size and digest). The
set of local files carries no duplicate paths in a file system walk, which the
correctness theorems assume explicitly. The model additionally records which
local files had their MD5 computed, making the hash observability of claim C7
statable. -/

instance {ε α : Type} [DecidableEq ε] [DecidableEq α] : DecidableEq (Except ε α) := fun a b =>
  match a, b with
  | Except.error e, Except.error e' =>
    if h : e = e' then isTrue (by rw [h]) else isFalse (by simp [h])
  | Except.ok x, Except.ok y =>
    if h : x = y then isTrue (by rw [h]) else isFalse (by simp [h])
  | Except.error _, Except.ok _ => isFalse (by simp)
  | Except.ok _, Except.error _ => isFalse (by simp)

/-- Remote object metadata as kept by `get_current_objects`:
`objects[name] = (size, md5)` (source line 757). -/
structure RemoteObj where
  key : String
  size : Nat
  md5 : String
deriving DecidableEq, Repr

/-- Local tile file as seen by `get_sync_actions`: relative path (`obj_name`,
line 779), byte size (`png.stat().st_size`, line 786) and content MD5
(lines 788-789). -/
structure LocalFile where
  name : String
  size : Nat
  md5 : String
deriving DecidableEq, Repr

/-- Sync plan, the `actions` dict of `get_sync_actions` (lines 770-774). -/
structure SyncActions where
  upload : List String
  update : List String
  delete : List String
deriving DecidableEq, Repr

/-- Lookup in the remote-objects mapping, model of `objects[obj_name]`
(line 785): the value at the first matching key, if any. -/
def lookupObj (objects : List RemoteObj) (name : String) : Option (Nat × String) :=
  (objects.find? (fun o => o.key = name)).map (fun o => (o.size, o.md5))

/-- Loop of `get_sync_actions` (source lines 778-802) over the local files, with
`remaining` the `remaining_objects` key set. Returns the actions, the
`unchanged_count`, and the list of local files whose MD5 was computed (the
source opens and hashes the file exactly when the sizes are equal, lines
787-789). Python would raise a `KeyError` on `objects[obj_name]` if the key
were absent, modelled by `Except.error`; it cannot happen since `remaining`
holds only keys of `objects`. -/
def sync_loop (objects : List RemoteObj) :
    List LocalFile → List String → Except Unit (SyncActions × Nat × List String)
  | [], remaining => Except.ok (⟨[], [], sortStrings remaining⟩, 0, [])
  | png :: rest, remaining =>
    if png.name ∈ remaining then
      match lookupObj objects png.name with
      | none => Except.error ()
      | some (obj_size, obj_md5) =>
        match sync_loop objects rest (remaining.erase png.name) with
        | Except.error e => Except.error e
        | Except.ok (acts, unchanged_count, hashed) =>
          let hashed' := if png.size = obj_size then png.name :: hashed else hashed
          if png.size = obj_size ∧ png.md5 = obj_md5 then
            Except.ok (acts, unchanged_count + 1, hashed')
          else
            Except.ok ({ acts with update := png.name :: acts.update }, unchanged_count, hashed')
    else
      match sync_loop objects rest remaining with
      | Except.error e => Except.error e
      | Except.ok (acts, unchanged_count, hashed) =>
        Except.ok ({ acts with upload := png.name :: acts.upload }, unchanged_count, hashed)

/-- Model of `get_sync_actions` (source lines 768-803): run the loop with
`remaining_objects = set(objects.keys())` (line 776); `actions["delete"]` is the
sorted list of the keys still remaining (line 802). -/
def get_sync_actions (tiles : List LocalFile) (objects : List RemoteObj) :
    Except Unit (SyncActions × Nat × List String) :=
  sync_loop objects tiles (objects.map RemoteObj.key)

/-- Classification predicate: the local file's name has a remote counterpart. -/
def presentB (objects : List RemoteObj) (l : LocalFile) : Bool :=
  (lookupObj objects l.name).isSome

/-- Classification predicate: the local file differs from its remote
counterpart (`changed` in the source, lines 784-791) — absent counts as
changed, though the loop only consults this for present files. -/
def changedB (objects : List RemoteObj) (l : LocalFile) : Bool :=
  match lookupObj objects l.name with
  | some (obj_size, obj_md5) => !(l.size = obj_size ∧ l.md5 = obj_md5 : Bool)
  | none => true

/-- Classification predicate: the loop computes this local file's MD5 — exactly
when its remote counterpart exists and the sizes agree (lines 787-789). -/
def hashesB (objects : List RemoteObj) (l : LocalFile) : Bool :=
  match lookupObj objects l.name with
  | some (obj_size, _) => l.size = obj_size
  | none => false

/-! ### Remote inventory fetch (`get_current_objects`, source lines 740-765) -/

/-- Object metadata inside one S3 `list_objects_v2` response page. -/
structure S3ObjMeta where
  key : String
  etag : String
  size : Nat
deriving DecidableEq, Repr

/-- One S3 `list_objects_v2` response. `contents` is `none` when the response
carries no `Contents` key — which is what the S3 API returns for a listing with
no matching objects; `response["Contents"]` then raises a `KeyError`. -/
structure S3Page where
  contents : Option (List S3ObjMeta)
  isTruncated : Bool
deriving DecidableEq, Repr

/-- Model of Python `str.strip('"')`: remove leading and trailing quote
characters (applied to the ETag, source line 755). -/
def strip_quotes (s : String) : String :=
  String.mk (((s.toList.dropWhile (· = '"')).reverse.dropWhile (· = '"')).reverse)

/-- Model of `key.endswith(".png")` (source line 753). -/
def ends_with_png (s : String) : Bool :=
  s.toList.reverse.take 4 == ['g', 'n', 'p', '.']

/-- Python dict assignment `objects[name] = v`: replace the value if the key
exists, else append. -/
def dict_insert (m : List RemoteObj) (o : RemoteObj) : List RemoteObj :=
  if m.any (fun p => p.key = o.key) then
    m.map (fun p => if p.key = o.key then o else p)
  else m ++ [o]

/-- Processing of one response page (source lines 751-757): for every metadata
entry with a `.png` key, store the key minus the prefix with its size and
unquoted ETag. -/
def process_page (pfx : String) (objects : List RemoteObj) (metas : List S3ObjMeta) :
    List RemoteObj :=
  metas.foldl
    (fun acc m =>
      if ends_with_png m.key then
        dict_insert acc ⟨m.key.drop pfx.length, m.size, strip_quotes m.etag⟩
      else acc)
    objects

/-- Loop of `get_current_objects` (source lines 746-763) over the successive
listing responses: each iteration reads `response["Contents"]` — a `KeyError`
(modelled as `Except.error`) when the page has no `Contents` — and continues
while `IsTruncated` holds. The page list models the responses the paginated
listing yields. -/
def get_current_objects_loop (pfx : String) :
    List S3Page → List RemoteObj → Except Unit (List RemoteObj)
  | [], objects => Except.ok objects
  | page :: rest, objects =>
    match page.contents with
    | none => Except.error ()
    | some metas =>
      let objects := process_page pfx objects metas
      if page.isTruncated then get_current_objects_loop pfx rest objects
      else Except.ok objects

/-- Model of `get_current_objects` (source lines 740-765). -/
def get_current_objects (pfx : String) (pages : List S3Page) : Except Unit (List RemoteObj) :=
  get_current_objects_loop pfx pages []

/-- Model of `get_sync_plan` (source lines 395-421): fetch the remote inventory,
then compute the sync actions; an exception from the fetch propagates before
any action is planned. -/
def get_sync_plan (tiles : List LocalFile) (pfx : String) (pages : List S3Page) :
    Except Unit (SyncActions × Nat × List String) :=
  match get_current_objects pfx pages with
  | Except.error e => Except.error e
  | Except.ok objects => get_sync_actions tiles objects

/-- Remote mirror of a local tile set: every local file present remotely with
matching size and content hash, and no extra remote keys — the remote state a
fully successful sync leaves behind. -/
def mirrorObjects (tiles : List LocalFile) : List RemoteObj :=
  tiles.map (fun t => ⟨t.name, t.size, t.md5⟩)

/-! ### Characterization of the sync-action loop -/

/-- Characterization of `sync_loop`: over local files with pairwise distinct
names and a duplicate-free `remaining` set that agrees with the remote lookup
on every local name, the loop classifies each local file independently —
Upload when absent remotely, Update when present and changed, Unchanged
otherwise — hashes exactly the present equal-size files, and deletes the
remaining keys with no local counterpart, in sorted order. -/
theorem sync_loop_spec (objects : List RemoteObj) :
    ∀ (tiles : List LocalFile) (remaining : List String),
      (tiles.map LocalFile.name).Nodup → remaining.Nodup →
      (∀ l ∈ tiles, (l.name ∈ remaining ↔ presentB objects l = true)) →
      sync_loop objects tiles remaining =
        Except.ok
          (⟨(tiles.filter (fun l => !presentB objects l)).map LocalFile.name,
            (tiles.filter (fun l => presentB objects l && changedB objects l)).map
              LocalFile.name,
            sortStrings
              (remaining.filter (fun k => decide (k ∉ tiles.map LocalFile.name)))⟩,
           (tiles.filter (fun l => presentB objects l && !changedB objects l)).length,
           (tiles.filter (fun l => hashesB objects l)).map LocalFile.name) := by
  intro tiles
  induction tiles with
  | nil =>
    intro remaining _ _ _
    simp [sync_loop]
  | cons l ls ih =>
    intro remaining hnd hrd hiff
    have hlnotin : l.name ∉ ls.map LocalFile.name := by
      simp only [List.map_cons, List.nodup_cons] at hnd
      exact hnd.1
    have hnd' : (ls.map LocalFile.name).Nodup := by
      simp only [List.map_cons, List.nodup_cons] at hnd
      exact hnd.2
    by_cases hmem : l.name ∈ remaining
    · have hpres : presentB objects l = true := (hiff l (by simp)).1 hmem
      obtain ⟨⟨osize, omd5⟩, hp⟩ : ∃ p, lookupObj objects l.name = some p := by
        rcases h : lookupObj objects l.name with _ | p
        · rw [presentB, h] at hpres
          simp at hpres
        · exact ⟨p, rfl⟩
      have hiff' : ∀ l' ∈ ls, (l'.name ∈ remaining.erase l.name ↔
          presentB objects l' = true) := by
        intro l' hl'
        have hne : l'.name ≠ l.name := by
          intro he
          exact hlnotin (he ▸ List.mem_map_of_mem LocalFile.name hl')
        rw [List.mem_erase_of_ne hne]
        exact hiff l' (List.mem_cons_of_mem _ hl')
      have ihe := ih (remaining.erase l.name) hnd' (hrd.erase _) hiff'
      have hdel : (remaining.erase l.name).filter
            (fun k => decide (k ∉ ls.map LocalFile.name)) =
          remaining.filter (fun k => decide (k ∉ (l :: ls).map LocalFile.name)) := by
        rw [List.Nodup.erase_eq_filter hrd, List.filter_filter]
        refine List.filter_congr ?_
        intro k _
        by_cases h1 : k = l.name
        · simp [h1]
        · by_cases h2 : k ∈ ls.map LocalFile.name
          · simp [h1, h2]
          · simp [h1, h2]
      have hch : changedB objects l = !(l.size = osize ∧ l.md5 = omd5 : Bool) := by
        rw [changedB, hp]
      have hhs : hashesB objects l = (l.size = osize : Bool) := by
        rw [hashesB, hp]
      simp only [sync_loop, hmem, if_true, hp, ihe, ← hdel]
      by_cases hc : l.size = osize ∧ l.md5 = omd5
      · simp [List.filter_cons, hpres, hch, hhs, hc.1, hc.2]
      · by_cases hsz : l.size = osize
        · have hmd : ¬l.md5 = omd5 := fun h => hc ⟨hsz, h⟩
          simp [List.filter_cons, hpres, hch, hhs, hsz, hmd]
        · simp [List.filter_cons, hpres, hch, hhs, hsz]
    · have hpres : presentB objects l = false := by
        rcases h : presentB objects l with _ | _
        · rfl
        · exact absurd ((hiff l (by simp)).2 h) hmem
      have hlook : lookupObj objects l.name = none := by
        rw [presentB] at hpres
        exact Option.not_isSome_iff_eq_none.mp (by simp [hpres])
      have hhs : hashesB objects l = false := by
        rw [hashesB, hlook]
      have hiff' : ∀ l' ∈ ls, (l'.name ∈ remaining ↔ presentB objects l' = true) :=
        fun l' hl' => hiff l' (List.mem_cons_of_mem _ hl')
      have ihe := ih remaining hnd' hrd hiff'
      have hdel : remaining.filter (fun k => decide (k ∉ ls.map LocalFile.name)) =
          remaining.filter (fun k => decide (k ∉ (l :: ls).map LocalFile.name)) := by
        refine List.filter_congr ?_
        intro k hk
        have hne : k ≠ l.name := fun he => hmem (he ▸ hk)
        simp [List.mem_cons, hne]
      simp only [sync_loop, hmem, if_false, ihe, ← hdel]
      simp [List.filter_cons, hpres, hhs]

/-- The lexicographic order on character lists is asymmetric. -/
theorem charListLt_asymm : ∀ (a b : List Char),
    charListLt a b = true → charListLt b a = false
  | [], [] => by simp [charListLt]
  | [], _ :: _ => fun _ => rfl
  | _ :: _, [] => by simp [charListLt]
  | c :: cs, d :: ds => by
    intro h
    rw [charListLt] at h ⊢
    by_cases h1 : c.toNat < d.toNat
    · have h2 : ¬d.toNat < c.toNat := by omega
      simp [h1, h2]
    · by_cases h2 : d.toNat < c.toNat
      · rw [if_neg h1, if_pos h2] at h
        cases h
      · rw [if_neg h1, if_neg h2] at h
        simp [h1, h2, charListLt_asymm cs ds h]

/-- Non-strict comparison (absence of reverse strict order) is transitive. -/
theorem charListNotLt_trans : ∀ (a b c : List Char),
    charListLt b a = false → charListLt c b = false → charListLt c a = false
  | [], b, c => fun _ _ => by cases c <;> rfl
  | _ :: _, [], _ => by
    intro h1 _
    rw [charListLt] at h1
    cases h1
  | _ :: _, _ :: _, [] => by
    intro _ h2
    rw [charListLt] at h2
    cases h2
  | a :: as, b :: bs, c :: cs => by
    intro h1 h2
    rw [charListLt] at h1 h2 ⊢
    by_cases hba : b.toNat < a.toNat
    · rw [if_pos hba] at h1
      cases h1
    · by_cases hcb : c.toNat < b.toNat
      · rw [if_pos hcb] at h2
        cases h2
      · rw [if_neg hba] at h1
        rw [if_neg hcb] at h2
        have hca : ¬c.toNat < a.toNat := by omega
        rw [if_neg hca]
        by_cases hac : a.toNat < c.toNat
        · rw [if_pos hac]
        · rw [if_neg hac]
          have hab : ¬a.toNat < b.toNat := by omega
          have hbc : ¬b.toNat < c.toNat := by omega
          rw [if_neg hab] at h1
          rw [if_neg hbc] at h2
          exact charListNotLt_trans as bs cs h1 h2

/-- Transitivity of the string order used by the model of `sorted`. -/
theorem strLe_trans {a b c : String} (h1 : strLe a b = true) (h2 : strLe b c = true) :
    strLe a c = true := by
  rw [strLe, Bool.not_eq_true'] at h1 h2 ⊢
  exact charListNotLt_trans a.toList b.toList c.toList h1 h2

/-- Totality of the string order: a failed comparison flips. -/
theorem strLe_of_not_strLe {a b : String} (h : ¬strLe a b = true) : strLe b a = true := by
  rw [strLe, Bool.not_eq_true'] at h ⊢
  rcases hx : charListLt b.toList a.toList with _ | _
  · exact absurd hx h
  · exact charListLt_asymm b.toList a.toList hx

/-- Inserting into a list permutes consing onto it. -/
theorem insertSorted_perm (s : String) : ∀ (l : List String),
    List.Perm (insertSorted s l) (s :: l)
  | [] => List.Perm.refl _
  | t :: ts => by
    rw [insertSorted]
    by_cases h : strLe s t = true
    · rw [if_pos h]
    · rw [if_neg h]
      exact (List.Perm.cons t (insertSorted_perm s ts)).trans (List.Perm.swap s t ts)

/-- The model of Python `sorted` permutes its input. -/
theorem sortStrings_perm : ∀ (l : List String), List.Perm (sortStrings l) l
  | [] => List.Perm.refl _
  | x :: xs => by
    show List.Perm (insertSorted x (sortStrings xs)) (x :: xs)
    exact (insertSorted_perm x (sortStrings xs)).trans
      (List.Perm.cons x (sortStrings_perm xs))

/-- Insertion preserves sortedness. -/
theorem insertSorted_sorted (s : String) : ∀ (l : List String),
    l.Pairwise (fun a b => strLe a b = true) →
    (insertSorted s l).Pairwise (fun a b => strLe a b = true)
  | [], _ => by simp [insertSorted]
  | t :: ts, h => by
    rw [insertSorted]
    obtain ⟨hts, htss⟩ := List.pairwise_cons.mp h
    by_cases hst : strLe s t = true
    · rw [if_pos hst]
      refine List.Pairwise.cons ?_ h
      intro u hu
      rcases List.mem_cons.mp hu with rfl | hu'
      · exact hst
      · exact strLe_trans hst (hts u hu')
    · rw [if_neg hst]
      refine List.Pairwise.cons ?_ (insertSorted_sorted s ts htss)
      intro u hu
      rcases List.mem_cons.mp ((insertSorted_perm s ts).mem_iff.mp hu) with rfl | hu'
      · exact strLe_of_not_strLe hst
      · exact hts u hu'

/-- The model of Python `sorted` produces a sorted list. -/
theorem sortStrings_sorted : ∀ (l : List String),
    (sortStrings l).Pairwise (fun a b => strLe a b = true)
  | [] => List.Pairwise.nil
  | x :: xs => by
    show (insertSorted x (sortStrings xs)).Pairwise _
    exact insertSorted_sorted x (sortStrings xs) (sortStrings_sorted xs)

/-- A name is among the remote keys exactly when the remote lookup succeeds. -/
theorem mem_keys_iff_isSome (objects : List RemoteObj) (name : String) :
    name ∈ objects.map RemoteObj.key ↔ (lookupObj objects name).isSome := by
  induction objects with
  | nil => simp [lookupObj]
  | cons o os ih =>
    by_cases h : o.key = name
    · simp [lookupObj, List.find?, h]
    · have h' : ¬name = o.key := fun he => h he.symm
      simp only [List.map_cons, List.mem_cons, h', false_or]
      rw [ih, lookupObj, lookupObj, List.find?]
      simp [h]

/-- Characterization of `get_sync_actions` over duplicate-free local names and
remote keys: uploads are the locals absent remotely, updates the present and
changed ones, the unchanged count and the hashed files are as classified per
file, and deletions are the sorted remote keys without a local counterpart. -/
theorem get_sync_actions_characterization (tiles : List LocalFile) (objects : List RemoteObj)
    (hnd : (tiles.map LocalFile.name).Nodup) (hkeys : (objects.map RemoteObj.key).Nodup) :
    get_sync_actions tiles objects =
      Except.ok
        (⟨(tiles.filter (fun l => !presentB objects l)).map LocalFile.name,
          (tiles.filter (fun l => presentB objects l && changedB objects l)).map
            LocalFile.name,
          sortStrings
            ((objects.map RemoteObj.key).filter
              (fun k => decide (k ∉ tiles.map LocalFile.name)))⟩,
         (tiles.filter (fun l => presentB objects l && !changedB objects l)).length,
         (tiles.filter (fun l => hashesB objects l)).map LocalFile.name) := by
  refine sync_loop_spec objects tiles (objects.map RemoteObj.key) hnd hkeys ?_
  intro l _
  rw [mem_keys_iff_isSome, presentB]

/-- Looking up any local file's name in the mirror of its own tile set yields
its own size and hash, provided local names are duplicate-free. -/
theorem lookup_mirror (tiles : List LocalFile) (hnd : (tiles.map LocalFile.name).Nodup) :
    ∀ l ∈ tiles, lookupObj (mirrorObjects tiles) l.name = some (l.size, l.md5) := by
  induction tiles with
  | nil => simp
  | cons hd tl ih =>
    intro l hl
    have hlnotin : hd.name ∉ tl.map LocalFile.name := by
      simp only [List.map_cons, List.nodup_cons] at hnd
      exact hnd.1
    have hnd' : (tl.map LocalFile.name).Nodup := by
      simp only [List.map_cons, List.nodup_cons] at hnd
      exact hnd.2
    rcases List.mem_cons.mp hl with rfl | hl'
    · simp [mirrorObjects, lookupObj, List.find?]
    · have hne : ¬hd.name = l.name := by
        intro he
        exact hlnotin (he ▸ List.mem_map_of_mem LocalFile.name hl')
      have := ih hnd' l hl'
      rw [mirrorObjects, List.map_cons, lookupObj, List.find?]
      simpa [hne, mirrorObjects, lookupObj]

/-- C2: for every remote inventory (duplicate-free keys, as in a dict) and every
local tile set (duplicate-free paths, as in a directory walk), the sync plan
classifies each local file as Upload when absent remotely and Update when
present with differing size or differing hash, counts the present files with
equal size and hash as unchanged, hashes exactly the present equal-size files,
and deletes, in sorted order, exactly the remote keys with no local
counterpart. The claim's concrete instance is the witness theorem. -/
theorem claim_C2_sync_diff_classification (tiles : List LocalFile) (objects : List RemoteObj)
    (hnd : (tiles.map LocalFile.name).Nodup) (hkeys : (objects.map RemoteObj.key).Nodup) :
    get_sync_actions tiles objects =
      Except.ok
        (⟨(tiles.filter (fun l => !presentB objects l)).map LocalFile.name,
          (tiles.filter (fun l => presentB objects l && changedB objects l)).map
            LocalFile.name,
          sortStrings
            ((objects.map RemoteObj.key).filter
              (fun k => decide (k ∉ tiles.map LocalFile.name)))⟩,
         (tiles.filter (fun l => presentB objects l && !changedB objects l)).length,
         (tiles.filter (fun l => hashesB objects l)).map LocalFile.name) ∧
    (sortStrings
        ((objects.map RemoteObj.key).filter
          (fun k => decide (k ∉ tiles.map LocalFile.name)))).Pairwise
      (fun a b => strLe a b = true) ∧
    List.Perm
      (sortStrings
        ((objects.map RemoteObj.key).filter
          (fun k => decide (k ∉ tiles.map LocalFile.name))))
      ((objects.map RemoteObj.key).filter
        (fun k => decide (k ∉ tiles.map LocalFile.name))) :=
  ⟨get_sync_actions_characterization tiles objects hnd hkeys,
    sortStrings_sorted _, sortStrings_perm _⟩

/-- Witness for C2 at the claim's instance: remote inventory
`{A:(10,"h1"), B:(20,"h2")}` and local files `{A: size 10 hash "h1",
C: size 5 hash "h3"}` plan `upload=[C], update=[], delete=[B], unchanged=1`,
with only `A` hashed and the deletions sorted. -/
theorem claim_C2_sync_diff_classification_witness :
    get_sync_actions [⟨"A", 10, "h1"⟩, ⟨"C", 5, "h3"⟩]
        [⟨"A", 10, "h1"⟩, ⟨"B", 20, "h2"⟩] =
      Except.ok (⟨["C"], [], ["B"]⟩, 1, ["A"]) ∧
    List.Pairwise (fun a b => strLe a b = true) ["B"] ∧
    List.Perm ["B"] ["B"] := by
  have h := claim_C2_sync_diff_classification
    [⟨"A", 10, "h1"⟩, ⟨"C", 5, "h3"⟩] [⟨"A", 10, "h1"⟩, ⟨"B", 20, "h2"⟩]
    (by decide) (by decide)
  refine ⟨?_, ?_, ?_⟩
  · rw [h.1]
    decide
  · exact h.2.1
  · exact h.2.2

/-- C3: sync planning is idempotent — against the remote mirror of the local
tile set (every local file present remotely with matching size and hash, no
extra remote keys), the plan is `upload=[], update=[], delete=[]` and every
local tile counts as Unchanged. -/
theorem claim_C3_sync_idempotent (tiles : List LocalFile)
    (hnd : (tiles.map LocalFile.name).Nodup) :
    get_sync_actions tiles (mirrorObjects tiles) =
      Except.ok (⟨[], [], []⟩, tiles.length, tiles.map LocalFile.name) := by
  have hkeyseq : (mirrorObjects tiles).map RemoteObj.key = tiles.map LocalFile.name := by
    simp [mirrorObjects, List.map_map, Function.comp]
  have hkeys : ((mirrorObjects tiles).map RemoteObj.key).Nodup := by
    rw [hkeyseq]; exact hnd
  have hlook := lookup_mirror tiles hnd
  have hup : tiles.filter (fun l => !presentB (mirrorObjects tiles) l) = [] :=
    List.filter_eq_nil_iff.mpr (fun l hl => by simp [presentB, hlook l hl])
  have hupd : tiles.filter
      (fun l => presentB (mirrorObjects tiles) l && changedB (mirrorObjects tiles) l) = [] :=
    List.filter_eq_nil_iff.mpr (fun l hl => by simp [changedB, hlook l hl])
  have hunch : tiles.filter
      (fun l => presentB (mirrorObjects tiles) l && !changedB (mirrorObjects tiles) l) =
        tiles :=
    List.filter_eq_self.mpr
      (fun l hl => by simp [presentB, changedB, hlook l hl])
  have hhash : tiles.filter (fun l => hashesB (mirrorObjects tiles) l) = tiles :=
    List.filter_eq_self.mpr (fun l hl => by simp [hashesB, hlook l hl])
  have hdel : ((mirrorObjects tiles).map RemoteObj.key).filter
      (fun k => decide (k ∉ tiles.map LocalFile.name)) = [] := by
    rw [hkeyseq]
    exact List.filter_eq_nil_iff.mpr (fun k hk => by simp [hk])
  rw [get_sync_actions_characterization tiles (mirrorObjects tiles) hnd hkeys,
    hup, hupd, hunch, hhash, hdel]
  simp [sortStrings]

/-- Witness for C3 at a concrete two-tile set. -/
theorem claim_C3_sync_idempotent_witness :
    get_sync_actions [⟨"0/0/0.png", 7, "aa"⟩, ⟨"1/0/1.png", 9, "bb"⟩]
        (mirrorObjects [⟨"0/0/0.png", 7, "aa"⟩, ⟨"1/0/1.png", 9, "bb"⟩]) =
      Except.ok (⟨[], [], []⟩, 2, ["0/0/0.png", "1/0/1.png"]) := by
  rw [claim_C3_sync_idempotent [⟨"0/0/0.png", 7, "aa"⟩, ⟨"1/0/1.png", 9, "bb"⟩] (by decide)]
  decide

/-- Replacing an element of a list by itself is the identity. -/
theorem set_getElem_self {α : Type} :
    ∀ (l : List α) (i : Nat) (h : i < l.length), l.set i l[i] = l
  | _ :: _, 0, _ => rfl
  | hd :: tl, n + 1, h => by
    have := set_getElem_self tl n (by simpa using Nat.lt_of_succ_lt_succ h)
    simpa [List.set] using this

/-- Filtering then mapping is unaffected by replacing one element with another
on which the filter predicate and the mapped function agree. -/
theorem filter_map_set_eq {α β : Type} (p : α → Bool) (f : α → β) :
    ∀ (l : List α) (i : Nat) (a : α) (hi : i < l.length),
      p a = p l[i] → f a = f l[i] →
      ((l.set i a).filter p).map f = (l.filter p).map f
  | [], i, a, hi => absurd hi (by simp)
  | hd :: tl, 0, a, hi => by
    intro hp hf
    simp only [List.getElem_cons_zero] at hp hf
    rcases h : p hd with _ | _
    · have hpa : p a = false := by rw [hp, h]
      simp [List.filter_cons, h, hpa]
    · have hpa : p a = true := by rw [hp, h]
      simp [List.filter_cons, h, hpa, hf]
  | hd :: tl, n + 1, a, hi => by
    intro hp hf
    have hn : n < tl.length := Nat.lt_of_succ_lt_succ (by simpa using hi)
    have := filter_map_set_eq p f tl n a hn
      (by simpa [List.getElem_cons_succ] using hp)
      (by simpa [List.getElem_cons_succ] using hf)
    rcases h : p hd with _ | _
    · simpa [List.set, List.filter_cons, h] using this
    · simpa [List.set, List.filter_cons, h] using this

/-- Length of a filtered list is unaffected by replacing one element with
another on which the filter predicate agrees. -/
theorem length_filter_set_eq {α : Type} (p : α → Bool) (l : List α) (i : Nat) (a : α)
    (hi : i < l.length) (hp : p a = p l[i]) :
    ((l.set i a).filter p).length = (l.filter p).length := by
  have h := filter_map_set_eq p (fun _ => Unit.unit) l i a hi hp rfl
  have hlen := congrArg List.length h
  simpa using hlen

/-- C7: a local file whose size differs from its same-named remote entry is
classified Update, its content hash is never computed, and the whole plan is
independent of that file's content — replacing its MD5 by any other value
yields an identical plan. -/
theorem claim_C7_size_first_short_circuit (objects : List RemoteObj) (tiles : List LocalFile)
    (hnd : (tiles.map LocalFile.name).Nodup) (hkeys : (objects.map RemoteObj.key).Nodup)
    (i : Nat) (hi : i < tiles.length) (osize : Nat) (omd5 : String)
    (hp : lookupObj objects tiles[i].name = some (osize, omd5))
    (hsz : tiles[i].size ≠ osize) (md5' : String) :
    (∀ acts cnt hashed, get_sync_actions tiles objects = Except.ok (acts, cnt, hashed) →
      tiles[i].name ∈ acts.update ∧ tiles[i].name ∉ hashed) ∧
    get_sync_actions
        (tiles.set i ⟨tiles[i].name, tiles[i].size, md5'⟩) objects =
      get_sync_actions tiles objects := by
  have htmem : tiles[i] ∈ tiles := List.getElem_mem hi
  have hpres : presentB objects tiles[i] = true := by simp [presentB, hp]
  have hch : changedB objects tiles[i] = true := by
    rw [changedB, hp]
    simp [hsz]
  have hhs : hashesB objects tiles[i] = false := by
    rw [hashesB, hp]
    simp [hsz]
  constructor
  · intro acts cnt hashed heq
    rw [get_sync_actions_characterization tiles objects hnd hkeys] at heq
    simp only [Except.ok.injEq, Prod.mk.injEq] at heq
    obtain ⟨hacts, _, hhashed⟩ := heq
    constructor
    · rw [← hacts]
      exact List.mem_map_of_mem LocalFile.name
        (List.mem_filter.mpr ⟨htmem, by simp [hpres, hch]⟩)
    · rw [← hhashed]
      intro hmem
      obtain ⟨x, hx, hxname⟩ := List.mem_map.mp hmem
      obtain ⟨hxtiles, hxhash⟩ := List.mem_filter.mp hx
      have hxeq : x = tiles[i] :=
        List.inj_on_of_nodup_map hnd hxtiles htmem hxname
      rw [hxeq, hhs] at hxhash
      exact absurd hxhash (by simp)
  · have hpa : lookupObj objects
        (⟨tiles[i].name, tiles[i].size, md5'⟩ : LocalFile).name =
        some (osize, omd5) := hp
    have hpresa : presentB objects
        ⟨tiles[i].name, tiles[i].size, md5'⟩ = presentB objects tiles[i] := by
      rw [presentB, presentB, hpa]
    have hcha : changedB objects
        ⟨tiles[i].name, tiles[i].size, md5'⟩ = changedB objects tiles[i] := by
      rw [changedB, changedB, hpa]
      simp [hsz]
    have hhsa : hashesB objects
        ⟨tiles[i].name, tiles[i].size, md5'⟩ = hashesB objects tiles[i] := by
      rw [hashesB, hashesB, hpa]
    have hmaplen : i < (tiles.map LocalFile.name).length := by simpa using hi
    have hnameseq : (tiles.set i
        ⟨tiles[i].name, tiles[i].size, md5'⟩).map LocalFile.name =
        tiles.map LocalFile.name := by
      rw [List.map_set]
      have hng : (⟨tiles[i].name, tiles[i].size, md5'⟩ :
          LocalFile).name = (tiles.map LocalFile.name)[i] := by
        simp
      rw [hng]
      exact set_getElem_self (tiles.map LocalFile.name) i hmaplen
    have hnd2 : ((tiles.set i
        ⟨tiles[i].name, tiles[i].size, md5'⟩).map LocalFile.name).Nodup := by
      rw [hnameseq]; exact hnd
    rw [get_sync_actions_characterization tiles objects hnd hkeys,
      get_sync_actions_characterization
        (tiles.set i ⟨tiles[i].name, tiles[i].size, md5'⟩) objects hnd2 hkeys]
    have hup := filter_map_set_eq (fun l => !presentB objects l) LocalFile.name tiles i
      ⟨tiles[i].name, tiles[i].size, md5'⟩ hi
      (congrArg (fun b => !b) hpresa) rfl
    have hupd := filter_map_set_eq (fun l => presentB objects l && changedB objects l)
      LocalFile.name tiles i ⟨tiles[i].name, tiles[i].size, md5'⟩ hi
      (by simp only []; rw [hpresa, hcha]) rfl
    have hunch := length_filter_set_eq (fun l => presentB objects l && !changedB objects l)
      tiles i ⟨tiles[i].name, tiles[i].size, md5'⟩ hi
      (by simp only []; rw [hpresa, hcha])
    have hhashf := filter_map_set_eq (fun l => hashesB objects l) LocalFile.name tiles i
      ⟨tiles[i].name, tiles[i].size, md5'⟩ hi hhsa rfl
    rw [hup, hupd, hunch, hhashf, hnameseq]

/-- Witness for C7: local file `A` of size 5 against remote `A` of size 10 —
classification is Update with nothing hashed, and changing the local MD5 from
"zz" to "ww" leaves the plan identical. -/
theorem claim_C7_size_first_short_circuit_witness :
    ("A" ∈ (⟨[], ["A"], []⟩ : SyncActions).update ∧ "A" ∉ ([] : List String)) ∧
    get_sync_actions [⟨"A", 5, "ww"⟩] [⟨"A", 10, "h1"⟩] =
      get_sync_actions [⟨"A", 5, "zz"⟩] [⟨"A", 10, "h1"⟩] := by
  have h := claim_C7_size_first_short_circuit [⟨"A", 10, "h1"⟩] [⟨"A", 5, "zz"⟩]
    (by decide) (by decide) 0 (by decide) 10 "h1" (by decide) (by decide) "ww"
  exact ⟨h.1 ⟨[], ["A"], []⟩ 0 [] (by decide), h.2⟩

/-- C1 (code bug): the source rotation test `if result_rows >= file_limit:`
compares the cumulative total row count instead of the current segment's
`file_rows`, so once the total passes the threshold every further fetch
rotates. With a 10,000,000-row threshold: (i) emitting 25,000,000 rows in five
5,000,000-row fetches yields 4 numbered segments, not the claimed 3, while the
claimed per-segment rotation rule (`export_to_csv_specRotation`) does yield 3;
(ii) after fetches of 10,000,000 then 1,000,000 then 1,000,000 rows the code
closes the second segment at only 1,000,000 rows — below the threshold —
where the claimed rule yields 2 segments; (iii) the claim's exact-threshold
case does hold: emitting exactly 10,000,000 rows leaves one CSV under the
original un-renamed filename. -/
theorem claim_C1_rotation_uses_total_rows :
    (export_to_csv "map_ne.csv" 10000000
        [5000000, 5000000, 5000000, 5000000, 5000000]).2.1 = 4 ∧
    (export_to_csv_specRotation "map_ne.csv" 10000000
        [5000000, 5000000, 5000000, 5000000, 5000000]).2.1 = 3 ∧
    export_to_csv "map_ne.csv" 10000000 [10000000, 1000000, 1000000] =
      (12000000, 3,
        [("submap_ne_0001.csv", 10000000), ("submap_ne_0002.csv", 1000000),
          ("submap_ne_0003.csv", 1000000)]) ∧
    (export_to_csv_specRotation "map_ne.csv" 10000000 [10000000, 1000000, 1000000]).2.1 =
      2 ∧
    export_to_csv "map_ne.csv" 10000000 [5000000, 5000000] =
      (10000000, 1, [("map_ne.csv", 10000000)]) := by
  refine ⟨by decide, by decide, by decide, by decide, by decide⟩

/-- C6: the shard-level merge of intermediate artifacts builds its command
without the `-u` flag (duplicates kept), the global merge builds it with `-u`
(duplicates removed); consequently, under the spec-modelled semantics of the
external `merge` tool, a point occurring once in each of two intermediate
segments of a shard occurs twice after the shard-level merge, and a point
present anywhere among the shard artifacts occurs exactly once in the global
index. -/
theorem claim_C6_merge_duplicate_policy {α : Type} [DecidableEq α] :
    (∀ (files : List String) (dir : String),
      merge_quadtrees_cmd files dir false = ["merge", "-o", dir] ++ files) ∧
    (∀ (files : List String) (dir : String),
      merge_quadtrees_cmd files dir true = ["merge", "-u", "-o", dir] ++ files) ∧
    (∀ (p : α) (seg1 seg2 : List α), seg1.count p = 1 → seg2.count p = 1 →
      (merge_semantics false [seg1, seg2]).count p = 2) ∧
    (∀ (p : α) (shards : List (List α)), p ∈ shards.flatten →
      (merge_semantics true shards).count p = 1) := by
  refine ⟨fun files dir => rfl, fun files dir => rfl, ?_, ?_⟩
  · intro p seg1 seg2 h1 h2
    simp [merge_semantics, h1, h2]
  · intro p shards hp
    rw [merge_semantics, if_pos rfl]
    exact List.count_eq_one_of_mem (List.nodup_dedup _) (List.mem_dedup.mpr hp)

/-- Witness for C6: point `5` once in each of two segments of one shard counts
twice after the shard merge and once after the global merge of two shards that
both contain it. -/
theorem claim_C6_merge_duplicate_policy_witness :
    (merge_quadtrees_cmd ["map_ne", "map_nw"] "shapes" false =
        ["merge", "-o", "shapes", "map_ne", "map_nw"]) ∧
    (merge_quadtrees_cmd ["map_ne", "map_nw"] "shapes" true =
        ["merge", "-u", "-o", "shapes", "map_ne", "map_nw"]) ∧
    (merge_semantics false [[5, 1], [2, 5]] : List Nat).count 5 = 2 ∧
    (merge_semantics true [[5], [3, 5]] : List Nat).count 5 = 1 := by
  refine ⟨(@claim_C6_merge_duplicate_policy Nat _).1 ["map_ne", "map_nw"] "shapes",
    (@claim_C6_merge_duplicate_policy Nat _).2.1 ["map_ne", "map_nw"] "shapes",
    (@claim_C6_merge_duplicate_policy Nat _).2.2.1 5 [5, 1] [2, 5] (by decide) (by decide),
    (@claim_C6_merge_duplicate_policy Nat _).2.2.2 5 [[5], [3, 5]] (by decide)⟩

/-- C9: `get_current_objects` reads `response["Contents"]` unconditionally, so
a listing response without a `Contents` entry — what an empty bucket or prefix
returns — raises a `KeyError` instead of producing an empty inventory, and
`get_sync_plan` therefore fails before any sync action is planned. -/
theorem claim_C9_empty_listing_raises (pfx : String) (b : Bool) (rest : List S3Page)
    (tiles : List LocalFile) :
    get_current_objects pfx ({ contents := none, isTruncated := b } :: rest) =
      Except.error () ∧
    get_sync_plan tiles pfx ({ contents := none, isTruncated := b } :: rest) =
      Except.error () := by
  constructor
  · rfl
  · rw [get_sync_plan]
    rfl

/-- C10: when the create phase exports zero rows, `generate` returns right
after the export stage — the trace holds only the export stage, the run
summary holds only the three export statistics, and no sync-plan, tile-sync or
status-upload stage runs even when upload was requested, leaving the remote
store untouched. -/
theorem claim_C10_zero_rows_early_return (env : GenEnv) (upload : Bool)
    (h : env.row_count = 0) :
    generate true upload env =
      ([Stage.exportCsv],
        [("export_duration_s", env.export_duration_s), ("row_count", env.row_count),
          ("csv_count", env.csv_count)]) ∧
    Stage.syncPlanStage ∉ (generate true upload env).1 ∧
    Stage.syncTilesStage ∉ (generate true upload env).1 ∧
    Stage.statusUpload ∉ (generate true upload env).1 := by
  have hg : generate true upload env =
      ([Stage.exportCsv],
        [("export_duration_s", env.export_duration_s), ("row_count", env.row_count),
          ("csv_count", env.csv_count)]) := by
    rw [generate]
    simp [h]
  refine ⟨hg, ?_, ?_, ?_⟩ <;> rw [hg] <;> simp

/-- Witness for C10 at a concrete environment with zero exported rows and
upload requested. -/
theorem claim_C10_zero_rows_early_return_witness :
    generate true true ⟨3, 0, 1, 0, 0, 0, 0, 0, 0, 0, 0, 0, 0, 0, 0, 0⟩ =
      ([Stage.exportCsv],
        [("export_duration_s", 3), ("row_count", 0), ("csv_count", 1)]) ∧
    Stage.syncPlanStage ∉
      (generate true true ⟨3, 0, 1, 0, 0, 0, 0, 0, 0, 0, 0, 0, 0, 0, 0, 0⟩).1 ∧
    Stage.syncTilesStage ∉
      (generate true true ⟨3, 0, 1, 0, 0, 0, 0, 0, 0, 0, 0, 0, 0, 0, 0, 0⟩).1 ∧
    Stage.statusUpload ∉
      (generate true true ⟨3, 0, 1, 0, 0, 0, 0, 0, 0, 0, 0, 0, 0, 0, 0, 0⟩).1 :=
  claim_C10_zero_rows_early_return ⟨3, 0, 1, 0, 0, 0, 0, 0, 0, 0, 0, 0, 0, 0, 0, 0⟩ true rfl

/-- Witness for C9 at the empty-bucket single-page listing. -/
theorem claim_C9_empty_listing_raises_witness :
    get_current_objects "tiles/" [{ contents := none, isTruncated := false }] =
      Except.error () ∧
    get_sync_plan [] "tiles/" [{ contents := none, isTruncated := false }] =
      Except.error () :=
  claim_C9_empty_listing_raises "tiles/" false [] []

/-! ### Executor theorems (`watch_jobs`) -/

/-- A halted run ignores all further jobs. -/
theorem watch_run_halted {E R : Type} (cb : Callbacks) (ps total : Nat) :
    ∀ (jobs : List (Nat × JobOutcome E R)) (s : WState E R), s.halted.isSome →
      watch_run cb ps total s jobs = s
  | [], s, _ => rfl
  | job :: rest, s, h => by
    have hstep : watch_step cb ps total s job = s := by rw [watch_step, if_pos h]
    rw [watch_run, List.foldl_cons, hstep]
    exact watch_run_halted cb ps total rest s h

/-- Running a concatenation of job lists runs them in sequence. -/
theorem watch_run_append {E R : Type} (cb : Callbacks) (ps total : Nat)
    (jobs1 jobs2 : List (Nat × JobOutcome E R)) (s : WState E R) :
    watch_run cb ps total s (jobs1 ++ jobs2) =
      watch_run cb ps total (watch_run cb ps total s jobs1) jobs2 := by
  rw [watch_run, watch_run, watch_run, List.foldl_append]

/-- One executor step preserves the per-job accounting: with `on_success`
supplied, the number of awaited jobs equals the successes plus the handled
errors plus the single escaped exception, if any. -/
theorem watch_step_preserves_accounting {E R : Type} (cb : Callbacks)
    (hOS : cb.onSuccess = true) (ps total : Nat) (s : WState E R)
    (job : Nat × JobOutcome E R)
    (h : s.awaited = s.successes.length + s.errors.length + haltCharge s.halted) :
    (watch_step cb ps total s job).awaited =
      (watch_step cb ps total s job).successes.length +
        (watch_step cb ps total s job).errors.length +
        haltCharge (watch_step cb ps total s job).halted := by
  rcases cb with ⟨os, oe, op, rv⟩
  cases os with
  | false => simp at hOS
  | true =>
    by_cases hh : s.halted.isSome
    · rw [watch_step, if_pos hh]
      exact h
    · have hnone : s.halted = none := Option.not_isSome_iff_eq_none.mp hh
      rw [hnone, haltCharge] at h
      rcases job with ⟨t, o⟩
      cases oe <;> cases op <;> cases rv <;>
        by_cases htick : s.last_elapsed + ps < t <;>
        cases o <;>
        simp [watch_step, hnone, htick, haltCharge, h] <;>
        omega

/-- The whole-run accounting invariant, by induction over the job list. -/
theorem watch_run_accounting {E R : Type} (cb : Callbacks) (hOS : cb.onSuccess = true)
    (ps total : Nat) :
    ∀ (jobs : List (Nat × JobOutcome E R)) (s : WState E R),
      s.awaited = s.successes.length + s.errors.length + haltCharge s.halted →
      (watch_run cb ps total s jobs).awaited =
        (watch_run cb ps total s jobs).successes.length +
          (watch_run cb ps total s jobs).errors.length +
          haltCharge (watch_run cb ps total s jobs).halted
  | [], s, h => h
  | job :: rest, s, h => by
    rw [watch_run, List.foldl_cons]
    exact watch_run_accounting cb hOS ps total rest (watch_step cb ps total s job)
      (watch_step_preserves_accounting cb hOS ps total s job h)

/-- C4: for ten dispatched jobs where job 4 raises and the rest succeed — with
no error handler the executor awaits exactly four jobs, fires `on_success` for
the first three only, and re-raises job 4's exception so jobs 5 through 10 are
never awaited; with an error handler all ten jobs are awaited, the handler
fires exactly once (with job 4's exception) and `on_success` fires exactly nine
times. In general, with `on_success` supplied, every awaited job fires exactly
one of the success callback or the error path (handler call or escaped
re-raise). -/
theorem claim_C4_batch_abort_vs_isolate (E R : Type) (rs : Fin 10 → R) (e : E) :
    (watch_jobs (⟨true, false, true, false⟩ : Callbacks) 5
        [(0, JobOutcome.ok (rs 0)), (0, JobOutcome.ok (rs 1)), (0, JobOutcome.ok (rs 2)),
          (0, JobOutcome.exc e), (0, JobOutcome.ok (rs 4)), (0, JobOutcome.ok (rs 5)),
          (0, JobOutcome.ok (rs 6)), (0, JobOutcome.ok (rs 7)), (0, JobOutcome.ok (rs 8)),
          (0, JobOutcome.ok (rs 9))] =
      { last_elapsed := 0, jobs_complete := 3, awaited := 4,
        successes := [rs 0, rs 1, rs 2], errors := [], raven_captures := 0,
        progress_calls := [], halted := some (Halt.excAbort e) }) ∧
    (watch_jobs (⟨true, true, true, false⟩ : Callbacks) 5
        [(0, JobOutcome.ok (rs 0)), (0, JobOutcome.ok (rs 1)), (0, JobOutcome.ok (rs 2)),
          (0, JobOutcome.exc e), (0, JobOutcome.ok (rs 4)), (0, JobOutcome.ok (rs 5)),
          (0, JobOutcome.ok (rs 6)), (0, JobOutcome.ok (rs 7)), (0, JobOutcome.ok (rs 8)),
          (0, JobOutcome.ok (rs 9))] =
      { last_elapsed := 0, jobs_complete := 10, awaited := 10,
        successes := [rs 0, rs 1, rs 2, rs 4, rs 5, rs 6, rs 7, rs 8, rs 9],
        errors := [e], raven_captures := 0, progress_calls := [], halted := none }) ∧
    (∀ (jobs : List (Nat × JobOutcome E R)) (onErr onProg hasRaven : Bool) (ps : Nat),
      (watch_jobs (⟨true, onErr, onProg, hasRaven⟩ : Callbacks) ps jobs).awaited =
        (watch_jobs (⟨true, onErr, onProg, hasRaven⟩ : Callbacks) ps jobs).successes.length +
          (watch_jobs (⟨true, onErr, onProg, hasRaven⟩ : Callbacks) ps jobs).errors.length +
          haltCharge (watch_jobs (⟨true, onErr, onProg, hasRaven⟩ : Callbacks) ps
            jobs).halted) := by
  refine ⟨?_, ?_, ?_⟩
  · simp [watch_jobs, watch_run, watch_step, WState.init]
  · simp [watch_jobs, watch_run, watch_step, WState.init]
  · intro jobs onErr onProg hasRaven ps
    exact watch_run_accounting (⟨true, onErr, onProg, hasRaven⟩ : Callbacks) rfl ps
      jobs.length jobs (WState.init E R) rfl

/-- Witness for C4: the ten-job batch with all results 0 and exception 42, in
both handler modes, plus the accounting identity at a one-job failing batch
with a handler. -/
theorem claim_C4_batch_abort_vs_isolate_witness :
    (watch_jobs (⟨true, false, true, false⟩ : Callbacks) 5
        [(0, JobOutcome.ok (0 : Nat)), (0, JobOutcome.ok 0), (0, JobOutcome.ok 0),
          (0, JobOutcome.exc (42 : Nat)), (0, JobOutcome.ok 0), (0, JobOutcome.ok 0),
          (0, JobOutcome.ok 0), (0, JobOutcome.ok 0), (0, JobOutcome.ok 0),
          (0, JobOutcome.ok 0)] =
      { last_elapsed := 0, jobs_complete := 3, awaited := 4, successes := [0, 0, 0],
        errors := [], raven_captures := 0, progress_calls := [],
        halted := some (Halt.excAbort 42) }) ∧
    (watch_jobs (⟨true, true, true, false⟩ : Callbacks) 5
        [(0, JobOutcome.ok (0 : Nat)), (0, JobOutcome.ok 0), (0, JobOutcome.ok 0),
          (0, JobOutcome.exc (42 : Nat)), (0, JobOutcome.ok 0), (0, JobOutcome.ok 0),
          (0, JobOutcome.ok 0), (0, JobOutcome.ok 0), (0, JobOutcome.ok 0),
          (0, JobOutcome.ok 0)] =
      { last_elapsed := 0, jobs_complete := 10, awaited := 10,
        successes := [0, 0, 0, 0, 0, 0, 0, 0, 0], errors := [42], raven_captures := 0,
        progress_calls := [], halted := none }) ∧
    (watch_jobs (⟨true, true, false, true⟩ : Callbacks) 5
        [(0, JobOutcome.exc (7 : Nat))] : WState Nat Nat).awaited =
      (watch_jobs (⟨true, true, false, true⟩ : Callbacks) 5
          [(0, JobOutcome.exc (7 : Nat))] : WState Nat Nat).successes.length +
        (watch_jobs (⟨true, true, false, true⟩ : Callbacks) 5
          [(0, JobOutcome.exc (7 : Nat))] : WState Nat Nat).errors.length +
        haltCharge (watch_jobs (⟨true, true, false, true⟩ : Callbacks) 5
          [(0, JobOutcome.exc (7 : Nat))] : WState Nat Nat).halted := by
  have h := claim_C4_batch_abort_vs_isolate Nat Nat (fun _ => 0) 42
  exact ⟨h.1, h.2.1, h.2.2 [(0, JobOutcome.exc 7)] true false true 5⟩

/-- C5 (code bug): the source guards `on_success` and `on_error` against `None`
but calls `on_progress` unguarded (line 278) although it defaults to `None`
(line 258); with all three callbacks absent, a batch whose second job begins
after the 5-unit progress interval hits the progress branch, calls `None` — a
`TypeError` — before awaiting that job, and never completes; the same batch
with `on_progress` supplied runs to completion. -/
theorem claim_C5_progress_callback_not_optional :
    (watch_jobs (⟨false, false, false, false⟩ : Callbacks) 5
        [(0, JobOutcome.ok (1 : Nat)), (6, JobOutcome.ok 2)] =
      { last_elapsed := 0, jobs_complete := 1, awaited := 1, successes := [],
        errors := ([] : List Nat), raven_captures := 0, progress_calls := [],
        halted := some Halt.progressNone }) ∧
    (watch_jobs (⟨false, false, true, false⟩ : Callbacks) 5
        [(0, JobOutcome.ok (1 : Nat)), (6, JobOutcome.ok 2)] =
      { last_elapsed := 6, jobs_complete := 2, awaited := 2, successes := [],
        errors := ([] : List Nat), raven_captures := 0, progress_calls := [(1, 2)],
        halted := none }) := by
  refine ⟨by decide, by decide⟩

/-- C8: when awaiting a job raises `KeyboardInterrupt`, the executor halts with
the propagated interrupt immediately after awaiting that job: `on_error` is
never invoked for it, nothing is reported to raven, no success fires for it,
and no later job is awaited — all counters besides the awaited count match the
state after the preceding jobs. -/
theorem claim_C8_interrupt_aborts_immediately {E R : Type} (cb : Callbacks) (ps : Nat)
    (pre post : List (Nat × JobOutcome E R)) (t : Nat) (hOP : cb.onProgress = true)
    (hpre : (watch_run cb ps (pre ++ (t, JobOutcome.interrupt) :: post).length
      (WState.init E R) pre).halted = none) :
    (watch_jobs cb ps (pre ++ (t, JobOutcome.interrupt) :: post)).halted =
        some Halt.interruptAbort ∧
    (watch_jobs cb ps (pre ++ (t, JobOutcome.interrupt) :: post)).errors =
        (watch_run cb ps (pre ++ (t, JobOutcome.interrupt) :: post).length
          (WState.init E R) pre).errors ∧
    (watch_jobs cb ps (pre ++ (t, JobOutcome.interrupt) :: post)).raven_captures =
        (watch_run cb ps (pre ++ (t, JobOutcome.interrupt) :: post).length
          (WState.init E R) pre).raven_captures ∧
    (watch_jobs cb ps (pre ++ (t, JobOutcome.interrupt) :: post)).successes =
        (watch_run cb ps (pre ++ (t, JobOutcome.interrupt) :: post).length
          (WState.init E R) pre).successes ∧
    (watch_jobs cb ps (pre ++ (t, JobOutcome.interrupt) :: post)).awaited =
        (watch_run cb ps (pre ++ (t, JobOutcome.interrupt) :: post).length
          (WState.init E R) pre).awaited + 1 := by
  have hstep : ∀ (s : WState E R), s.halted = none →
      (watch_step cb ps (pre ++ (t, JobOutcome.interrupt) :: post).length s
          (t, JobOutcome.interrupt)).halted = some Halt.interruptAbort ∧
      (watch_step cb ps (pre ++ (t, JobOutcome.interrupt) :: post).length s
          (t, JobOutcome.interrupt)).errors = s.errors ∧
      (watch_step cb ps (pre ++ (t, JobOutcome.interrupt) :: post).length s
          (t, JobOutcome.interrupt)).raven_captures = s.raven_captures ∧
      (watch_step cb ps (pre ++ (t, JobOutcome.interrupt) :: post).length s
          (t, JobOutcome.interrupt)).successes = s.successes ∧
      (watch_step cb ps (pre ++ (t, JobOutcome.interrupt) :: post).length s
          (t, JobOutcome.interrupt)).awaited = s.awaited + 1 := by
    intro s hs
    by_cases htick : s.last_elapsed + ps < t
    · simp [watch_step, hs, htick, hOP]
    · simp [watch_step, hs, htick]
  have hrun : watch_jobs cb ps (pre ++ (t, JobOutcome.interrupt) :: post) =
      watch_run cb ps (pre ++ (t, JobOutcome.interrupt) :: post).length
        (watch_step cb ps (pre ++ (t, JobOutcome.interrupt) :: post).length
          (watch_run cb ps (pre ++ (t, JobOutcome.interrupt) :: post).length
            (WState.init E R) pre)
          (t, JobOutcome.interrupt))
        post := by
    rw [watch_jobs, watch_run_append, watch_run, List.foldl_cons]
    rfl
  rw [hrun,
    watch_run_halted cb ps (pre ++ (t, JobOutcome.interrupt) :: post).length post _
      (by rw [(hstep _ hpre).1]; rfl)]
  exact hstep _ hpre

/-- Witness for C8: a one-job prefix, the interrupt, and one trailing job — the
run halts on the interrupt with the prefix's counters intact and the last job
never awaited. -/
theorem claim_C8_interrupt_aborts_immediately_witness :
    (watch_jobs (⟨true, true, true, true⟩ : Callbacks) 5
        (([(0, JobOutcome.ok 7)] : List (Nat × JobOutcome Nat Nat)) ++
          (0, JobOutcome.interrupt) :: [(0, JobOutcome.ok 9)])).halted =
      some Halt.interruptAbort ∧
    (watch_jobs (⟨true, true, true, true⟩ : Callbacks) 5
        (([(0, JobOutcome.ok 7)] : List (Nat × JobOutcome Nat Nat)) ++
          (0, JobOutcome.interrupt) :: [(0, JobOutcome.ok 9)])).errors =
      (watch_run (⟨true, true, true, true⟩ : Callbacks) 5
        (([(0, JobOutcome.ok 7)] : List (Nat × JobOutcome Nat Nat)) ++
          (0, JobOutcome.interrupt) :: [(0, JobOutcome.ok 9)]).length
        (WState.init Nat Nat) [(0, JobOutcome.ok 7)]).errors ∧
    (watch_jobs (⟨true, true, true, true⟩ : Callbacks) 5
        (([(0, JobOutcome.ok 7)] : List (Nat × JobOutcome Nat Nat)) ++
          (0, JobOutcome.interrupt) :: [(0, JobOutcome.ok 9)])).raven_captures =
      (watch_run (⟨true, true, true, true⟩ : Callbacks) 5
        (([(0, JobOutcome.ok 7)] : List (Nat × JobOutcome Nat Nat)) ++
          (0, JobOutcome.interrupt) :: [(0, JobOutcome.ok 9)]).length
        (WState.init Nat Nat) [(0, JobOutcome.ok 7)]).raven_captures ∧
    (watch_jobs (⟨true, true, true, true⟩ : Callbacks) 5
        (([(0, JobOutcome.ok 7)] : List (Nat × JobOutcome Nat Nat)) ++
          (0, JobOutcome.interrupt) :: [(0, JobOutcome.ok 9)])).successes =
      (watch_run (⟨true, true, true, true⟩ : Callbacks) 5
        (([(0, JobOutcome.ok 7)] : List (Nat × JobOutcome Nat Nat)) ++
          (0, JobOutcome.interrupt) :: [(0, JobOutcome.ok 9)]).length
        (WState.init Nat Nat) [(0, JobOutcome.ok 7)]).successes ∧
    (watch_jobs (⟨true, true, true, true⟩ : Callbacks) 5
        (([(0, JobOutcome.ok 7)] : List (Nat × JobOutcome Nat Nat)) ++
          (0, JobOutcome.interrupt) :: [(0, JobOutcome.ok 9)])).awaited =
      (watch_run (⟨true, true, true, true⟩ : Callbacks) 5
        (([(0, JobOutcome.ok 7)] : List (Nat × JobOutcome Nat Nat)) ++
          (0, JobOutcome.interrupt) :: [(0, JobOutcome.ok 9)]).length
        (WState.init Nat Nat) [(0, JobOutcome.ok 7)]).awaited + 1 :=
  claim_C8_interrupt_aborts_immediately (⟨true, true, true, true⟩ : Callbacks) 5
    [(0, JobOutcome.ok 7)] [(0, JobOutcome.ok 9)] 0 rfl (by decide)

end Datamap
